import Mathlib

set_option maxRecDepth 8192

/-! Shallow embedding of crun's CRIU checkpoint/restore glue (src/libcrun/criu.c).

The C file drives the external CRIU checkpoint engine through a narrow call
surface.  We embed the two entry points, the helper prepare_restore_mounts and
the descriptor-ledger handling as pure Lean functions over an explicit
environment (Env) supplying the result of every system call and engine call.
A run produces an Outcome: the C return value, the error left in the
libcrun_error_t out-parameter, the ordered trace of engine and filesystem
calls made, and the possibly mutated container status. -/

/-- One OCI mount record of the container definition (destination, source,
filesystem type, option strings). -/
structure Mount where
  destination : String
  source : String
  type : String
  options : List String
  deriving DecidableEq

/-- One OCI namespace record: type string and optional host path. -/
structure NamespaceRec where
  type : String
  path : Option String
  deriving DecidableEq

/-- The linux section of the container definition used by criu.c. -/
structure LinuxDef where
  maskedPaths : List String
  namespaces : List NamespaceRec
  deriving DecidableEq

/-- The container definition fields read by criu.c. -/
structure ContainerDef where
  mounts : List Mount
  linux : LinuxDef
  deriving DecidableEq

/-- libcrun_container_status_t fields read or written by criu.c. -/
structure ContainerStatus where
  pid : Int
  bundle : String
  rootfs : String
  externalDescriptors : Option String
  deriving DecidableEq

/-- libcrun_checkpoint_restore_t: the options record. -/
structure CrOptions where
  imagePath : Option String
  workPath : Option String
  leaveRunning : Bool
  extUnixSk : Bool
  shellJob : Bool
  tcpEstablished : Bool
  deriving DecidableEq

/-- Result of a successful stat(): the inode number and whether the path is a
regular file (S_ISREG). -/
structure StatRec where
  ino : Nat
  isReg : Bool
  deriving DecidableEq

/-- Environment: outcome of every external call the C code can make.  System
calls that fail report an errno (as a Nat); open() reports a file descriptor
on success. -/
structure Env where
  euid : Nat
  criuInit : Int
  mkdirP : String → Option Nat
  openFile : String → Except Nat Nat
  writeFile : String → String → Option Nat
  statP : String → Except Nat StatRec
  readAllFile : String → Except Nat String
  dirp : String → Except Nat Bool
  ensureDir : String → Option Nat
  ensureFile : String → Option Nat
  mountBind : String → String → Option Nat
  umountP : String → Option Nat
  rmdirP : String → Option Nat
  criuSetRoot : String → Int
  criuDump : Int
  criuRestoreChild : Int

/-- One engine call or filesystem operation performed during a run. -/
inductive Event where
  | initOpts : Event
  | setImagesDirFd : Nat → Event
  | setWorkDirFd : Nat → Event
  | setPidEv : Int → Event
  | setRootCall : String → Event
  | addExtMount : String → String → Event
  | addExternal : String → Event
  | addInheritFd : Int → String → Event
  | setLeaveRunning : Bool → Event
  | setExtUnixSk : Bool → Event
  | setShellJob : Bool → Event
  | setTcpEstablished : Bool → Event
  | setLogLevel : Int → Event
  | setLogFile : String → Event
  | dumpCall : Event
  | restoreChildCall : Event
  | fsMkdir : String → Bool → Event
  | fsOpen : String → Event
  | fsRead : String → Event
  | fsWrite : String → String → Event
  | fsMount : String → String → Bool → Event
  | fsUmount : String → Bool → Event
  | fsRmdir : String → Bool → Event
  | fsEnsureDir : String → Event
  | fsEnsureFile : String → Event
  deriving DecidableEq

/-- The error left in the libcrun_error_t out-parameter, by site. -/
inductive Err where
  | needsRoot : Err
  | criuInitFailed : Int → Err
  | imagePathNotSet : Err
  | mkdirCheckpointDir : String → Nat → Err
  | openCheckpointDir : String → Nat → Err
  | openDescriptorsFile : String → Nat → Err
  | writeDescriptorsFile : Nat → Err
  | openWorkDir : String → Nat → Err
  | setRootFailed : String → Err
  | invalidNamespace : String → Err
  | statFailed : String → Nat → Err
  | dumpFailed : Int → String → Err
  | readAllFileFailed : String → Nat → Err
  | parseDescriptors : Err
  | mkdirRestoreDir : String → Nat → Err
  | mountRestoreDir : String → Nat → Err
  | openNsFailed : String → Nat → Err
  | dirCheckFailed : String → Nat → Err
  | openRootDir : String → Nat → Err
  | ensureDirFailed : String → Nat → Err
  | ensureFileFailed : String → Nat → Err
  | restoreFailed : Int → String → Err
  | umountError : String → Nat → Err
  | rmdirError : String → Nat → Err
  deriving DecidableEq

/-- crun_make_error returns -status - 1 (so errors made with status 0 return
exactly -1). -/
def mkErr (status : Nat) : Int := -(Int.ofNat status) - 1

/-- A failing phase: the C return value together with the error recorded in
the out-parameter. -/
structure Fail where
  ret : Int
  err : Option Err
  deriving DecidableEq

/-- Result of one whole entry-point run. -/
structure Outcome where
  ret : Int
  err : Option Err
  trace : List Event
  statusOut : ContainerStatus
  deriving DecidableEq

/-- Character-list prefix test (the semantics of strncmp (s, p, strlen p) == 0). -/
def listIsPre : List Char → List Char → Bool
  | [], _ => true
  | _ :: _, [] => false
  | a :: as, b :: bs => a == b && listIsPre as bs

/-- strncmp (s, p, strlen p) == 0: p is a prefix of s. -/
def strncmpPre (p s : String) : Bool := listIsPre p.data s.data

/-- The inner option scan of the external-bind-mount loops: walk the option
strings and stop at the first one equal to "bind" or "rbind". -/
def hasBindOption : List String → Bool
  | [] => false
  | o :: rest => if o == "bind" || o == "rbind" then true else hasBindOption rest

/-- Checkpoint external-mount loop (criu.c lines 143-157): for each mount
whose options contain bind or rbind, criu_add_ext_mount (dest, dest); the
inner loop breaks after the first matching option. -/
def checkpoint_ext_mount_events : List Mount → List Event
  | [] => []
  | m :: rest =>
      (if hasBindOption m.options then [Event.addExtMount m.destination m.destination] else [])
        ++ checkpoint_ext_mount_events rest

/-- Restore external-mount loop (criu.c lines 404-418): same scan, but
criu_add_ext_mount (dest, source). -/
def restore_ext_mount_events : List Mount → List Event
  | [] => []
  | m :: rest =>
      (if hasBindOption m.options then [Event.addExtMount m.destination m.source] else [])
        ++ restore_ext_mount_events rest

/-- A masked-path externalization loop: stat each path, and for those that
stat successfully as a regular file emit criu_add_ext_mount (path, f path);
stat failures and non-regular files are silently skipped.  The checkpoint
loop and the third restore loop use f = id, the first two restore loops use
f = fun _ => "/dev/null". -/
def masked_path_events (stat : String → Except Nat StatRec) (f : String → String) :
    List String → List Event
  | [] => []
  | p :: rest =>
      (match stat p with
        | Except.ok sb => if sb.isReg then [Event.addExtMount p (f p)] else []
        | Except.error _ => [])
        ++ masked_path_events stat f rest

/-- Spec-side predicate: the mount's option set contains bind or rbind. -/
def specHasBind (m : Mount) : Prop := "bind" ∈ m.options ∨ "rbind" ∈ m.options

instance (m : Mount) : Decidable (specHasBind m) := by
  unfold specHasBind; infer_instance

theorem hasBindOption_iff (os : List String) :
    hasBindOption os = true ↔ ("bind" ∈ os ∨ "rbind" ∈ os) := by
  induction os with
  | nil => simp [hasBindOption]
  | cons o rest ih =>
      simp only [hasBindOption, List.mem_cons]
      by_cases h1 : o = "bind"
      · subst h1; simp
      · by_cases h2 : o = "rbind"
        · subst h2; simp
        · have hc : (o == "bind" || o == "rbind") = false := by
            simp [h1, h2]
          rw [hc]
          have h1' : ¬ ("bind" = o) := fun he => h1 he.symm
          have h2' : ¬ ("rbind" = o) := fun he => h2 he.symm
          simp only [Bool.false_eq_true, if_false, ih]
          tauto

/-- C1: the mount translator emits a mapping if and only if the mount's
option set contains "bind" or "rbind", at most one mapping per mount record
(each record contributes through a filterMap, hence zero or one events), and
the mapping is (destination, destination) during checkpoint and
(destination, source) during restore. -/
theorem c1_mount_translator (ms : List Mount) :
    checkpoint_ext_mount_events ms
      = ms.filterMap (fun m =>
          if specHasBind m then some (Event.addExtMount m.destination m.destination) else none)
    ∧ restore_ext_mount_events ms
      = ms.filterMap (fun m =>
          if specHasBind m then some (Event.addExtMount m.destination m.source) else none) := by
  induction ms with
  | nil => exact ⟨rfl, rfl⟩
  | cons m rest ih =>
      constructor
      · show (if hasBindOption m.options then [Event.addExtMount m.destination m.destination] else [])
            ++ checkpoint_ext_mount_events rest = _
        by_cases h : specHasBind m
        · have hb : hasBindOption m.options = true := (hasBindOption_iff m.options).mpr h
          simp [List.filterMap_cons, h, hb, ih.1]
        · have hb : hasBindOption m.options = false := by
            cases hb' : hasBindOption m.options
            · rfl
            · exact absurd ((hasBindOption_iff m.options).mp hb') h
          simp [List.filterMap_cons, h, hb, ih.1]
      · show (if hasBindOption m.options then [Event.addExtMount m.destination m.source] else [])
            ++ restore_ext_mount_events rest = _
        by_cases h : specHasBind m
        · have hb : hasBindOption m.options = true := (hasBindOption_iff m.options).mpr h
          simp [List.filterMap_cons, h, hb, ih.2]
        · have hb : hasBindOption m.options = false := by
            cases hb' : hasBindOption m.options
            · rfl
            · exact absurd ((hasBindOption_iff m.options).mp hb') h
          simp [List.filterMap_cons, h, hb, ih.2]

/-- CLONE_NEWNET from sched.h. -/
def cloneNewnet : Int := 0x40000000

/-- Modelled from the spec: libcrun_find_namespace lives in linux.c, which is
not among these sources.  Per the spec it resolves a declared namespace type
string to a well-known integer namespace identifier and returns a negative
value for an unrecognized type; only the value for "network" (CLONE_NEWNET)
is compared against here. -/
def libcrun_find_namespace (t : String) : Int :=
  if t = "network" then cloneNewnet
  else if t = "cgroup" then 0x02000000
  else if t = "ipc" then 0x08000000
  else if t = "mount" then 0x00020000
  else if t = "pid" then 0x20000000
  else if t = "user" then 0x10000000
  else if t = "uts" then 0x04000000
  else -1

/-- Checkpoint namespace loop (criu.c lines 181-200): resolve each namespace
type (unrecognized type is an error); at the first record of network type
with a non-null path, stat the path (failure is an error), register the
external reference net[inode]:extRootNetNS and break. -/
def checkpoint_ns_phase (stat : String → Except Nat StatRec) :
    List NamespaceRec → List Event × Option Fail
  | [] => ([], none)
  | ns :: rest =>
      let value := libcrun_find_namespace ns.type
      if value < 0 then ([], some ⟨mkErr 0, some (Err.invalidNamespace ns.type)⟩)
      else if value = cloneNewnet then
        match ns.path with
        | some p =>
            (match stat p with
              | Except.error e => ([], some ⟨mkErr e, some (Err.statFailed p e)⟩)
              | Except.ok sb =>
                  ([Event.addExternal ("net[" ++ toString sb.ino ++ "]:extRootNetNS")], none))
        | none => checkpoint_ns_phase stat rest
      else checkpoint_ns_phase stat rest

/-- Restore namespace loop (criu.c lines 476-493): at the first network
namespace with a non-null path, open the path read-only; the error check
tests the stale variable ret (which still holds criu_set_root's result, 0 at
this point) instead of the open result, so an open failure is not surfaced
and criu_add_inherit_fd is called with fd -1; then break. -/
def restore_ns_phase (openf : String → Except Nat Nat) (retVar : Int) :
    List NamespaceRec → List Event × Option Fail
  | [] => ([], none)
  | ns :: rest =>
      let value := libcrun_find_namespace ns.type
      if value < 0 then ([], some ⟨mkErr 0, some (Err.invalidNamespace ns.type)⟩)
      else if value = cloneNewnet then
        match ns.path with
        | some p =>
            let fd : Int := match openf p with
              | Except.ok n => Int.ofNat n
              | Except.error _ => -1
            if retVar < 0 then
              ([], some ⟨mkErr 0, some (Err.openNsFailed p 0)⟩)
            else
              ([Event.addInheritFd fd "extRootNetNS"], none)
        | none => restore_ns_phase openf retVar rest
      else restore_ns_phase openf retVar rest

/-- Spec-side description: the first namespace record whose type resolves to
network and whose path is set. -/
def firstNetPath : List NamespaceRec → Option String
  | [] => none
  | ns :: rest =>
      if libcrun_find_namespace ns.type = cloneNewnet then
        match ns.path with
        | some p => some p
        | none => firstNetPath rest
      else firstNetPath rest

/-- C8: on checkpoint, the namespace scan registers the external reference
string net[inode]:extRootNetNS exactly for the first network namespace with
a set path (and nothing when there is none), so at most one network
namespace external reference is emitted; unconditionally, the loop emits at
most one event. -/
theorem c8_net_namespace_reference (stat : String → Except Nat StatRec)
    (nss : List NamespaceRec)
    (hvalid : ∀ ns ∈ nss, 0 ≤ libcrun_find_namespace ns.type) :
    (checkpoint_ns_phase stat nss =
      match firstNetPath nss with
      | none => ([], none)
      | some p =>
          match stat p with
          | Except.ok sb =>
              ([Event.addExternal ("net[" ++ toString sb.ino ++ "]:extRootNetNS")], none)
          | Except.error e => ([], some ⟨mkErr e, some (Err.statFailed p e)⟩))
    ∧ (checkpoint_ns_phase stat nss).1.length ≤ 1 := by
  induction nss with
  | nil => exact ⟨rfl, by simp [checkpoint_ns_phase]⟩
  | cons ns rest ih =>
      have hns := hvalid ns (List.mem_cons_self ns rest)
      have hrest := fun n hn => hvalid n (List.mem_cons_of_mem ns hn)
      have hnotlt : ¬ libcrun_find_namespace ns.type < 0 := not_lt.mpr hns
      by_cases hnet : libcrun_find_namespace ns.type = cloneNewnet
      · have hcn : ¬ (cloneNewnet < 0) := by decide
        cases hp : ns.path with
        | some p =>
            cases hs : stat p with
            | ok sb =>
                constructor
                · simp [checkpoint_ns_phase, firstNetPath, hnotlt, hnet, hp, hs, hcn]
                · simp [checkpoint_ns_phase, hnotlt, hnet, hp, hs, hcn]
            | error e =>
                constructor
                · simp [checkpoint_ns_phase, firstNetPath, hnotlt, hnet, hp, hs, hcn]
                · simp [checkpoint_ns_phase, hnotlt, hnet, hp, hs, hcn]
        | none =>
            constructor
            · have := (ih hrest).1
              simpa [checkpoint_ns_phase, firstNetPath, hnotlt, hnet, hp] using this
            · have := (ih hrest).2
              simpa [checkpoint_ns_phase, hnotlt, hnet, hp] using this
      · constructor
        · have := (ih hrest).1
          simpa [checkpoint_ns_phase, firstNetPath, hnotlt, hnet] using this
        · have := (ih hrest).2
          simpa [checkpoint_ns_phase, hnotlt, hnet] using this

/-- Witness for C8: a single network namespace with inode 777 produces
exactly the reference string net[777]:extRootNetNS. -/
theorem c8_net_namespace_reference_witness :
    checkpoint_ns_phase (fun _ => Except.ok ⟨777, false⟩)
        [⟨"network", some "/var/run/netns/foo"⟩]
      = ([Event.addExternal "net[777]:extRootNetNS"], none) := by
  have h := c8_net_namespace_reference (fun _ => Except.ok ⟨777, false⟩)
    [⟨"network", some "/var/run/netns/foo"⟩] (by decide)
  exact h.1.trans (by decide)

/-- The tmpfs scan of prepare_restore_mounts (criu.c lines 245-257): walk
the whole mount table; the destination is "on a tmpfs" when some mount of
type tmpfs has destination + "/" as a prefix of it (strncmp on the loop
destination with the trailing slash appended); the scan breaks at the first
hit. -/
def onTmpfs (dest : String) : List Mount → Bool
  | [] => false
  | mj :: rest =>
      if strncmpPre (mj.destination ++ "/") dest && mj.type == "tmpfs" then true
      else onTmpfs dest rest

/-- The body of prepare_restore_mounts for one mount record (criu.c lines
229-299): skip cgroup/cgroup2 mounts and mounts nested under a tmpfs; for
bind mounts consult crun_dir_p on the source (an error aborts); open the
container root; then recreate the destination as a directory or as a plain
file. -/
def prepare_restore_mount_step (env : Env) (root : String) (allMounts : List Mount)
    (m : Mount) : List Event × Option Fail :=
  if m.type == "cgroup" || m.type == "cgroup2" then ([], none)
  else if onTmpfs m.destination allMounts then ([], none)
  else
    let isDirRes : Except Fail Bool :=
      if hasBindOption m.options then
        match env.dirp m.source with
        | Except.ok b => Except.ok b
        | Except.error e => Except.error ⟨mkErr e, some (Err.dirCheckFailed m.source e)⟩
      else Except.ok true
    match isDirRes with
    | Except.error f => ([], some f)
    | Except.ok isDir =>
        match env.openFile root with
        | Except.error e => ([Event.fsOpen root], some ⟨mkErr e, some (Err.openRootDir root e)⟩)
        | Except.ok _ =>
            if isDir then
              match env.ensureDir m.destination with
              | some e => ([Event.fsOpen root, Event.fsEnsureDir m.destination],
                           some ⟨mkErr e, some (Err.ensureDirFailed m.destination e)⟩)
              | none => ([Event.fsOpen root, Event.fsEnsureDir m.destination], none)
            else
              match env.ensureFile m.destination with
              | some e => ([Event.fsOpen root, Event.fsEnsureFile m.destination],
                           some ⟨mkErr e, some (Err.ensureFileFailed m.destination e)⟩)
              | none => ([Event.fsOpen root, Event.fsEnsureFile m.destination], none)

/-- The outer loop of prepare_restore_mounts: process every mount in order,
aborting at the first failing step. -/
def prepare_loop (env : Env) (root : String) (allMounts : List Mount) :
    List Mount → List Event × Option Fail
  | [] => ([], none)
  | m :: rest =>
      match prepare_restore_mount_step env root allMounts m with
      | (evs, some f) => (evs, some f)
      | (evs, none) =>
          let r := prepare_loop env root allMounts rest
          (evs ++ r.1, r.2)

/-- prepare_restore_mounts (criu.c lines 221-302): the tmpfs scan runs over
the same full mount table that is being iterated. -/
def prepare_restore_mounts (env : Env) (root : String) (ms : List Mount) :
    List Event × Option Fail :=
  prepare_loop env root ms ms

/-- Spec-side predicate: the destination lies under another mount of type
tmpfs (prefix match on that mount's destination followed by "/"). -/
def specUnderTmpfs (all : List Mount) (dest : String) : Prop :=
  ∃ mj ∈ all, mj.type = "tmpfs" ∧ strncmpPre (mj.destination ++ "/") dest = true

instance (all : List Mount) (dest : String) : Decidable (specUnderTmpfs all dest) := by
  unfold specUnderTmpfs; infer_instance

theorem onTmpfs_iff (dest : String) (all : List Mount) :
    onTmpfs dest all = true ↔ specUnderTmpfs all dest := by
  induction all with
  | nil => simp [onTmpfs, specUnderTmpfs]
  | cons mj rest ih =>
      simp only [onTmpfs]
      by_cases h : (strncmpPre (mj.destination ++ "/") dest && mj.type == "tmpfs") = true
      · rw [if_pos h]
        rcases Bool.and_eq_true_iff.mp h with ⟨h1, h2⟩
        simp only [true_iff]
        exact ⟨mj, List.mem_cons_self mj rest, beq_iff_eq.mp h2, h1⟩
      · rw [if_neg h]
        rw [ih]
        constructor
        · rintro ⟨mj', hmem, ht, hpre⟩
          exact ⟨mj', List.mem_cons_of_mem mj hmem, ht, hpre⟩
        · rintro ⟨mj', hmem, ht, hpre⟩
          rcases List.mem_cons.mp hmem with he | hmem'
          · subst he
            exact absurd (by simp [hpre, ht]) h
          · exact ⟨mj', hmem', ht, hpre⟩

/-- C10: the restore mount preparer recreates no mountpoint for a mount of
type cgroup or cgroup2, and none for a mount whose destination lies under a
mount of type tmpfs: the per-mount step of prepare_restore_mounts emits no
event (and no error) for such a record. -/
theorem c10_prepare_skips (env : Env) (root : String) (allMounts : List Mount) (m : Mount)
    (h : m.type = "cgroup" ∨ m.type = "cgroup2" ∨ specUnderTmpfs allMounts m.destination) :
    prepare_restore_mount_step env root allMounts m = ([], none) := by
  rcases h with h | h | h
  · simp [prepare_restore_mount_step, h]
  · simp [prepare_restore_mount_step, h]
  · have ht : onTmpfs m.destination allMounts = true := (onTmpfs_iff _ _).mpr h
    by_cases hc : (m.type == "cgroup" || m.type == "cgroup2") = true
    · simp [prepare_restore_mount_step, hc]
    · simp only [prepare_restore_mount_step, hc, Bool.false_eq_true, if_false, ht, if_true]

/-- Witness for C10: a cgroup mount, a cgroup2 mount and a mount nested
under a tmpfs all produce no recreation event. -/
theorem c10_prepare_skips_witness :
    prepare_restore_mount_step
        ⟨0, 0, fun _ => none, fun _ => Except.ok 3, fun _ _ => none,
         fun _ => Except.error 2, fun _ => Except.error 2, fun _ => Except.ok true,
         fun _ => none, fun _ => none, fun _ _ => none, fun _ => none, fun _ => none,
         fun _ => 0, 0, 1⟩
        "/b/criu-root"
        [⟨"/dev/shm", "shm", "tmpfs", []⟩, ⟨"/dev/shm/x", "/host/x", "bind", ["rbind"]⟩]
        ⟨"/dev/shm/x", "/host/x", "bind", ["rbind"]⟩
      = ([], none) := by
  have h := c10_prepare_skips
    ⟨0, 0, fun _ => none, fun _ => Except.ok 3, fun _ _ => none,
     fun _ => Except.error 2, fun _ => Except.error 2, fun _ => Except.ok true,
     fun _ => none, fun _ => none, fun _ _ => none, fun _ => none, fun _ => none,
     fun _ => 0, 0, 1⟩
    "/b/criu-root"
    [⟨"/dev/shm", "shm", "tmpfs", []⟩, ⟨"/dev/shm/x", "/host/x", "bind", ["rbind"]⟩]
    ⟨"/dev/shm/x", "/host/x", "bind", ["rbind"]⟩
    (Or.inr (Or.inr ⟨⟨"/dev/shm", "shm", "tmpfs", []⟩, by decide⟩))
  exact h

/-- Modelled from the spec: the serialization of the standard-descriptor
destinations.  The string stored in status->external_descriptors is produced
outside this file (by the container setup code); per the spec the ledger
file holds a JSON array of strings in index order.  Elements are emitted
quoted and comma-separated. -/
def encodeTail : List String → List Char
  | [] => []
  | s :: rest =>
      '"' :: (s.data ++ '"' :: (match rest with
        | [] => []
        | _ :: _ => ',' :: encodeTail rest))

/-- Modelled from the spec: DescriptorLedger.write serializes the sequence
as a JSON array of strings in index order. -/
def writeLedger (v : List String) : String := String.mk ('[' :: encodeTail v ++ [']'])

/-- Scan a JSON string body up to the closing quote. -/
def scanString : List Char → Option (List Char × List Char)
  | [] => none
  | c :: rest =>
      if c = '"' then some ([], rest)
      else
        match scanString rest with
        | some (s, r) => some (c :: s, r)
        | none => none

/-- Parse one or more comma-separated JSON strings; fuel bounds the number
of elements. -/
def parseElems : Nat → List Char → Option (List String × List Char)
  | _, [] => none
  | 0, _ :: _ => none
  | Nat.succ fuel, c :: rest =>
      if c = '"' then
        match scanString rest with
        | none => none
        | some (s, r) =>
            match r with
            | ',' :: r2 =>
                (match parseElems fuel r2 with
                  | some (v, r3) => some (String.mk s :: v, r3)
                  | none => none)
            | _ => some ([String.mk s], r)
      else none

/-- Modelled from the spec: DescriptorLedger.read parses the file content as
a JSON array of strings (the C code hands the buffer to the external yajl
parser and walks the resulting array); a non-array or malformed content
yields none. -/
def readLedger (content : String) : Option (List String) :=
  match content.data with
  | '[' :: rest =>
      (match rest with
        | [']'] => some []
        | _ =>
            (match parseElems rest.length rest with
              | some (v, [']']) => some v
              | _ => none))
  | _ => none

/-- A character that does not break the plain JSON string encoding: not a
quote, not a backslash, not a control character. -/
def jsonSafeChar (c : Char) : Bool := c != '"' && c != '\\' && !(Nat.blt c.toNat 32)

/-- A string without characters that break JSON string encoding. -/
def jsonSafe (s : String) : Bool := s.data.all jsonSafeChar

theorem scanString_encode (s : List Char) (rest : List Char)
    (h : ∀ c ∈ s, c ≠ '"') :
    scanString (s ++ '"' :: rest) = some (s, rest) := by
  induction s with
  | nil => simp [scanString]
  | cons c cs ih =>
      have hc : c ≠ '"' := h c (List.mem_cons_self c cs)
      have ih' := ih (fun c' hc' => h c' (List.mem_cons_of_mem c hc'))
      simp [scanString, hc, ih']

theorem parseElems_quote (f : Nat) (cs : List Char) :
    parseElems (f + 1) ('"' :: cs) =
      match scanString cs with
      | none => none
      | some (s, r) =>
          match r with
          | ',' :: r2 =>
              (match parseElems f r2 with
                | some (v, r3) => some (String.mk s :: v, r3)
                | none => none)
          | _ => some ([String.mk s], r) := by
  simp [parseElems]

theorem parseElems_encode (v : List String) (hne : v ≠ [])
    (hsafe : ∀ s ∈ v, ∀ c ∈ s.data, c ≠ '"') :
    ∀ fuel, v.length ≤ fuel →
      parseElems fuel (encodeTail v ++ [']']) = some (v, [']']) := by
  induction v with
  | nil => exact absurd rfl hne
  | cons s rest ih =>
      intro fuel hfuel
      cases fuel with
      | zero => simp at hfuel
      | succ f =>
          have hs : ∀ c ∈ s.data, c ≠ '"' :=
            hsafe s (List.mem_cons_self s rest)
          cases rest with
          | nil =>
              have hstep : encodeTail [s] = '"' :: (s.data ++ '"' :: []) := rfl
              rw [hstep, List.cons_append, parseElems_quote]
              have harg : (s.data ++ '"' :: []) ++ [']'] = s.data ++ '"' :: [']'] := by
                simp
              rw [harg, scanString_encode s.data [']'] hs]
              rfl
          | cons s2 rest2 =>
              have hsafe' : ∀ t ∈ s2 :: rest2, ∀ c ∈ t.data, c ≠ '"' :=
                fun t ht => hsafe t (List.mem_cons_of_mem s ht)
              have hf : (s2 :: rest2).length ≤ f := by
                simpa using Nat.le_of_succ_le_succ hfuel
              have ihr := ih (by simp) hsafe' f hf
              have hstep : encodeTail (s :: s2 :: rest2)
                  = '"' :: (s.data ++ '"' :: ',' :: encodeTail (s2 :: rest2)) := rfl
              rw [hstep, List.cons_append, parseElems_quote]
              have harg : (s.data ++ '"' :: ',' :: encodeTail (s2 :: rest2)) ++ [']']
                  = s.data ++ '"' :: ',' :: (encodeTail (s2 :: rest2) ++ [']']) := by
                simp
              rw [harg,
                scanString_encode s.data (',' :: (encodeTail (s2 :: rest2) ++ [']'])) hs]
              change (match parseElems f (encodeTail (s2 :: rest2) ++ [']']) with
                | some (v, r3) => some (String.mk s.data :: v, r3)
                | none => none) = some (s :: s2 :: rest2, [']'])
              rw [ihr]

theorem length_le_encodeTail (v : List String) : v.length ≤ (encodeTail v).length := by
  induction v with
  | nil => simp [encodeTail]
  | cons s rest ih =>
      cases rest with
      | nil => simp [encodeTail]
      | cons s2 rest2 =>
          simp only [encodeTail, List.length_cons, List.length_append] at *
          omega

theorem jsonSafe_no_quote {t : String} (h : jsonSafe t = true) :
    ∀ c ∈ t.data, c ≠ '"' := by
  intro c hc
  have hh := List.all_eq_true.mp h c hc
  unfold jsonSafeChar at hh
  simp only [Bool.and_eq_true, bne_iff_ne] at hh
  exact hh.1.1

/-- C9: reading the descriptor ledger back after writing it yields the
written sequence, for every sequence of descriptor-destination strings free
of characters that break JSON string encoding. -/
theorem c9_ledger_roundtrip (v : List String) (h : ∀ s ∈ v, jsonSafe s = true) :
    readLedger (writeLedger v) = some v := by
  cases v with
  | nil => rfl
  | cons s rest =>
      have hlen : (s :: rest).length ≤ (encodeTail (s :: rest) ++ [']']).length := by
        have hle := length_le_encodeTail (s :: rest)
        simp only [List.length_append, List.length_cons, List.length_nil] at *
        omega
      have hp := parseElems_encode (s :: rest) (by simp)
        (fun t ht => jsonSafe_no_quote (h t ht))
        ((encodeTail (s :: rest) ++ [']']).length) hlen
      change (match parseElems ((encodeTail (s :: rest) ++ [']']).length)
            (encodeTail (s :: rest) ++ [']']) with
          | some (v, [']']) => some v
          | _ => none) = some (s :: rest)
      rw [hp]
      rfl

/-- Witness for C9: the ledger for the stdio triple of the spec round-trips. -/
theorem c9_ledger_roundtrip_witness :
    (∀ s ∈ ["pipe:[12345]", "/dev/pts/3", "pipe:[67890]"], jsonSafe s = true)
    ∧ readLedger (writeLedger ["pipe:[12345]", "/dev/pts/3", "pipe:[67890]"])
        = some ["pipe:[12345]", "/dev/pts/3", "pipe:[67890]"] :=
  ⟨by decide, c9_ledger_roundtrip _ (by decide)⟩

/-- The pipe-reconnect loop of restore's descriptor phase (criu.c lines
363-379): for each ledger element whose string starts with "pipe:",
criu_add_inherit_fd (index, string). -/
def pipe_inherit_events (v : List String) : List Event :=
  v.enum.filterMap (fun p =>
    if strncmpPre "pipe:" p.2 then some (Event.addInheritFd (Int.ofNat p.1) p.2) else none)

/-- Final checkpoint stage (criu.c lines 142-218): external mounts, masked
paths, network namespace, boolean options, logging, criu_dump. -/
def checkpoint_stage_dump (env : Env) (status : ContainerStatus) (d : ContainerDef)
    (opts : CrOptions) (workPath : String) (t : List Event) : Outcome :=
  let t1 := t ++ checkpoint_ext_mount_events d.mounts
  let t2 := t1 ++ masked_path_events env.statP (fun p => p) d.linux.maskedPaths
  match checkpoint_ns_phase env.statP d.linux.namespaces with
  | (evs, some f) => ⟨f.ret, f.err, t2 ++ evs, status⟩
  | (evs, none) =>
      let t3 := t2 ++ evs ++
        [Event.setLeaveRunning opts.leaveRunning, Event.setExtUnixSk opts.extUnixSk,
         Event.setShellJob opts.shellJob, Event.setTcpEstablished opts.tcpEstablished,
         Event.setLogLevel 4, Event.setLogFile "dump.log", Event.dumpCall]
      if env.criuDump ≠ 0 then
        ⟨mkErr 0, some (Err.dumpFailed env.criuDump workPath), t3, status⟩
      else ⟨0, none, t3, status⟩

/-- Checkpoint pid and root binding (criu.c lines 132-140). -/
def checkpoint_stage_root (env : Env) (status : ContainerStatus) (d : ContainerDef)
    (opts : CrOptions) (workPath : String) (t : List Event) : Outcome :=
  let t1 := t ++ [Event.setPidEv status.pid]
  let path := status.bundle ++ "/" ++ status.rootfs
  let t2 := t1 ++ [Event.setRootCall path]
  if env.criuSetRoot path ≠ 0 then ⟨mkErr 0, some (Err.setRootFailed path), t2, status⟩
  else checkpoint_stage_dump env status d opts workPath t2

/-- Checkpoint work-directory binding (criu.c lines 113-130): when no work
path is given the image path stands in, for the error message only. -/
def checkpoint_stage_work (env : Env) (status : ContainerStatus) (d : ContainerDef)
    (opts : CrOptions) (ip : String) (t : List Event) : Outcome :=
  match opts.workPath with
  | some wp =>
      let t1 := t ++ [Event.fsOpen wp]
      (match env.openFile wp with
        | Except.error e => ⟨mkErr e, some (Err.openWorkDir wp e), t1, status⟩
        | Except.ok workFd =>
            checkpoint_stage_root env status d opts wp (t1 ++ [Event.setWorkDirFd workFd]))
  | none => checkpoint_stage_root env status d opts ip t

/-- Checkpoint image directory and descriptors.json (criu.c lines 90-111). -/
def checkpoint_stage_dirs (env : Env) (status : ContainerStatus) (d : ContainerDef)
    (opts : CrOptions) (ip : String) (t : List Event) : Outcome :=
  let t1 := t ++ [Event.fsOpen ip]
  match env.openFile ip with
  | Except.error e => ⟨mkErr e, some (Err.openCheckpointDir ip e), t1, status⟩
  | Except.ok imageFd =>
      let t2 := t1 ++ [Event.setImagesDirFd imageFd]
      let dp := ip ++ "/" ++ "descriptors.json"
      let t3 := t2 ++ [Event.fsOpen dp]
      match env.openFile dp with
      | Except.error e => ⟨mkErr e, some (Err.openDescriptorsFile dp e), t3, status⟩
      | Except.ok _ =>
          (match status.externalDescriptors with
            | some s =>
                let t4 := t3 ++ [Event.fsWrite dp s]
                (match env.writeFile dp s with
                  | some e => ⟨mkErr e, some (Err.writeDescriptorsFile e), t4, status⟩
                  | none => checkpoint_stage_work env status d opts ip t4)
            | none => checkpoint_stage_work env status d opts ip t3)

/-- libcrun_container_checkpoint_linux_criu (criu.c lines 41-219): privilege
check, criu_init_opts, image-path precondition, image directory creation
(EEXIST, errno 17, tolerated), then the remaining stages. -/
def libcrun_container_checkpoint_linux_criu (env : Env) (status : ContainerStatus)
    (d : ContainerDef) (opts : CrOptions) : Outcome :=
  if env.euid ≠ 0 then ⟨mkErr 0, some Err.needsRoot, [], status⟩
  else
    let t0 : List Event := [Event.initOpts]
    if env.criuInit < 0 then ⟨mkErr 0, some (Err.criuInitFailed env.criuInit), t0, status⟩
    else
      match opts.imagePath with
      | none => ⟨mkErr 0, some Err.imagePathNotSet, t0, status⟩
      | some ip =>
          let t1 := t0 ++ [Event.fsMkdir ip (env.mkdirP ip).isNone]
          let cont := checkpoint_stage_dirs env status d opts ip t1
          match env.mkdirP ip with
          | some e =>
              if e ≠ 17 then ⟨mkErr e, some (Err.mkdirCheckpointDir ip e), t1, status⟩
              else cont
          | none => cont

/-- The out label of restore (criu.c lines 534-541): rmdir the ephemeral
root; the first check tests the earlier return value ret against -1 (the
code compares ret, not the rmdir result) and returns it, else an rmdir
failure is surfaced, else the earlier value is returned. -/
def restore_out (env : Env) (root : String) (ret : Int) (errE : Option Err)
    (t : List Event) (st : ContainerStatus) : Outcome :=
  let t1 := t ++ [Event.fsRmdir root (env.rmdirP root).isNone]
  if ret = -1 then ⟨ret, errE, t1, st⟩
  else
    match env.rmdirP root with
    | some e => ⟨mkErr e, some (Err.rmdirError root e), t1, st⟩
    | none => ⟨ret, errE, t1, st⟩

/-- The out_umount label of restore (criu.c lines 529-533): umount the
ephemeral root; an umount failure is returned unconditionally, replacing
any earlier error; otherwise fall through to the out label. -/
def restore_out_umount (env : Env) (root : String) (ret : Int) (errE : Option Err)
    (t : List Event) (st : ContainerStatus) : Outcome :=
  let t1 := t ++ [Event.fsUmount root (env.umountP root).isNone]
  match env.umountP root with
  | some e => ⟨mkErr e, some (Err.umountError root e), t1, st⟩
  | none => restore_out env root ret errE t1 st

/-- Restore engine stage (criu.c lines 403-527): external mounts, the two
masked-path loops mapping to /dev/null, ephemeral root creation and bind
mount, prepare_restore_mounts, criu_set_root, the namespace loop (whose
failures return directly, skipping cleanup), the third masked-path loop
mapping each path to itself, boolean options (leave_running is not set on
restore), logging, criu_restore_child, and the cleanup labels. -/
def restore_stage_engine (env : Env) (st : ContainerStatus) (d : ContainerDef)
    (opts : CrOptions) (wp : String) (t : List Event) : Outcome :=
  let t1 := t ++ restore_ext_mount_events d.mounts
  let t2 := t1 ++ masked_path_events env.statP (fun _ => "/dev/null") d.linux.maskedPaths
  let t3 := t2 ++ masked_path_events env.statP (fun _ => "/dev/null") d.linux.maskedPaths
  let root := st.bundle ++ "/criu-root"
  let t4 := t3 ++ [Event.fsMkdir root (env.mkdirP root).isNone]
  match env.mkdirP root with
  | some e => ⟨mkErr e, some (Err.mkdirRestoreDir root e), t4, st⟩
  | none =>
      let t5 := t4 ++ [Event.fsMount st.rootfs root (env.mountBind st.rootfs root).isNone]
      match env.mountBind st.rootfs root with
      | some e => restore_out env root (mkErr e) (some (Err.mountRestoreDir root e)) t5 st
      | none =>
          match prepare_restore_mounts env root d.mounts with
          | (evs, some f) => restore_out_umount env root f.ret f.err (t5 ++ evs) st
          | (evs, none) =>
              let t6 := t5 ++ evs ++ [Event.setRootCall root]
              if env.criuSetRoot root ≠ 0 then
                restore_out_umount env root (mkErr 0) (some (Err.setRootFailed root)) t6 st
              else
                match restore_ns_phase env.openFile 0 d.linux.namespaces with
                | (nsEvs, some f) => ⟨f.ret, f.err, t6 ++ nsEvs, st⟩
                | (nsEvs, none) =>
                    let t7 := t6 ++ nsEvs
                      ++ masked_path_events env.statP (fun p => p) d.linux.maskedPaths
                      ++ [Event.setExtUnixSk opts.extUnixSk, Event.setShellJob opts.shellJob,
                          Event.setTcpEstablished opts.tcpEstablished,
                          Event.setLogLevel 4, Event.setLogFile "restore.log",
                          Event.restoreChildCall]
                    if env.criuRestoreChild ≤ 0 then
                      restore_out_umount env root (mkErr 0)
                        (some (Err.restoreFailed env.criuRestoreChild wp)) t7 st
                    else
                      restore_out_umount env root env.criuRestoreChild none t7
                        { st with pid := env.criuRestoreChild }

/-- Restore descriptor-ledger and work-directory stage (criu.c lines
336-401): read descriptors.json (its content is copied into
status->external_descriptors before parsing), parse it, register the pipe
descriptors, bind the work directory. -/
def restore_stage_desc_work (env : Env) (st : ContainerStatus) (d : ContainerDef)
    (opts : CrOptions) (ip : String) (t : List Event) : Outcome :=
  let dp := ip ++ "/" ++ "descriptors.json"
  let t1 := t ++ [Event.fsRead dp]
  match env.readAllFile dp with
  | Except.error e => ⟨mkErr e, some (Err.readAllFileFailed dp e), t1, st⟩
  | Except.ok buffer =>
      let st1 := { st with externalDescriptors := some buffer }
      match readLedger buffer with
      | none => ⟨mkErr 0, some Err.parseDescriptors, t1, st1⟩
      | some v =>
          let t2 := t1 ++ pipe_inherit_events v
          match opts.workPath with
          | some wp =>
              let t3 := t2 ++ [Event.fsOpen wp]
              (match env.openFile wp with
                | Except.error e => ⟨mkErr e, some (Err.openWorkDir wp e), t3, st1⟩
                | Except.ok workFd =>
                    restore_stage_engine env st1 d opts wp (t3 ++ [Event.setWorkDirFd workFd]))
          | none => restore_stage_engine env st1 d opts ip t2

/-- libcrun_container_restore_linux_criu (criu.c lines 304-542): privilege
check, criu_init_opts, image-path precondition, image directory open, then
the remaining stages. -/
def libcrun_container_restore_linux_criu (env : Env) (status : ContainerStatus)
    (d : ContainerDef) (opts : CrOptions) : Outcome :=
  if env.euid ≠ 0 then ⟨mkErr 0, some Err.needsRoot, [], status⟩
  else
    let t0 : List Event := [Event.initOpts]
    if env.criuInit < 0 then ⟨mkErr 0, some (Err.criuInitFailed env.criuInit), t0, status⟩
    else
      match opts.imagePath with
      | none => ⟨mkErr 0, some Err.imagePathNotSet, t0, status⟩
      | some ip =>
          let t1 := t0 ++ [Event.fsOpen ip]
          match env.openFile ip with
          | Except.error e => ⟨mkErr e, some (Err.openCheckpointDir ip e), t1, status⟩
          | Except.ok imageFd =>
              restore_stage_desc_work env status d opts ip (t1 ++ [Event.setImagesDirFd imageFd])

/-- Engine-client calls, as opposed to filesystem operations. -/
def engineEvent : Event → Bool
  | Event.initOpts => true
  | Event.setImagesDirFd _ => true
  | Event.setWorkDirFd _ => true
  | Event.setPidEv _ => true
  | Event.setRootCall _ => true
  | Event.addExtMount _ _ => true
  | Event.addExternal _ => true
  | Event.addInheritFd _ _ => true
  | Event.setLeaveRunning _ => true
  | Event.setExtUnixSk _ => true
  | Event.setShellJob _ => true
  | Event.setTcpEstablished _ => true
  | Event.setLogLevel _ => true
  | Event.setLogFile _ => true
  | Event.dumpCall => true
  | Event.restoreChildCall => true
  | _ => false

/-- Events that hand an external mount to the engine. -/
def isAddExtMount : Event → Bool
  | Event.addExtMount _ _ => true
  | _ => false

/-- A fully cooperative environment: root caller, every external call
succeeds, every stat reports a regular file with inode 777, the engine
restore reports child pid 42. -/
def envOk : Env where
  euid := 0
  criuInit := 0
  mkdirP := fun _ => none
  openFile := fun _ => Except.ok 3
  writeFile := fun _ _ => none
  statP := fun _ => Except.ok ⟨777, true⟩
  readAllFile := fun _ => Except.ok "[]"
  dirp := fun _ => Except.ok true
  ensureDir := fun _ => none
  ensureFile := fun _ => none
  mountBind := fun _ _ => none
  umountP := fun _ => none
  rmdirP := fun _ => none
  criuSetRoot := fun _ => 0
  criuDump := 0
  criuRestoreChild := 42

/-- A container status with bundle /b and rootfs path rootfs. -/
def statusBase : ContainerStatus := ⟨100, "/b", "rootfs", some "[]"⟩

/-- Options with image path /img, no work path. -/
def optsBase : CrOptions := ⟨some "/img", none, false, true, false, true⟩

/-- Options with no image path. -/
def optsNoImage : CrOptions := ⟨none, none, false, false, false, false⟩

/-- An empty container definition. -/
def defEmpty : ContainerDef := ⟨[], ⟨[], []⟩⟩

/-- A definition with one masked path. -/
def defMasked : ContainerDef := ⟨[], ⟨["/etc/secret"], []⟩⟩

/-- A definition with one namespace of unrecognized type. -/
def defBadNs : ContainerDef := ⟨[], ⟨[], [⟨"doesnotexist", none⟩]⟩⟩

/-- A definition with one path-backed network namespace. -/
def defNetNs : ContainerDef := ⟨[], ⟨[], [⟨"network", some "/var/run/netns/foo"⟩]⟩⟩

/-- Like envOk, but opening the network namespace path fails with ENOENT. -/
def envOpenNsFails : Env :=
  { envOk with openFile := fun p =>
      if p = "/var/run/netns/foo" then Except.error 2 else Except.ok 3 }

/-- Like envOk, but the engine restore call fails and so does the cleanup
umount (errno 16, EBUSY). -/
def envC4 : Env := { envOk with criuRestoreChild := 0, umountP := fun _ => some 16 }

/-- C2 (evaluation at the failing input): on restore with masked path
/etc/secret statting as a regular file, the engine receives the mapping
(/etc/secret, /dev/null) twice and additionally (/etc/secret, /etc/secret)
once, from the duplicated /dev/null loops and the third masked-path loop
that maps each path to itself -- not exactly the single /dev/null mapping
the claim states. -/
theorem c2_masked_restore_eval :
    ((libcrun_container_restore_linux_criu envOk statusBase defMasked optsBase).trace.filter
        isAddExtMount)
      = [Event.addExtMount "/etc/secret" "/dev/null",
         Event.addExtMount "/etc/secret" "/dev/null",
         Event.addExtMount "/etc/secret" "/etc/secret"] := by decide

/-- C3 (evaluation at the failing input): a restore whose namespace list
holds an unrecognized type fails after the ephemeral root has been created
and bind-mounted, and returns without ever calling umount or rmdir on it:
the loop returns directly, skipping both cleanup labels. -/
theorem c3_cleanup_skipped_eval :
    (libcrun_container_restore_linux_criu envOk statusBase defBadNs optsBase).err
        = some (Err.invalidNamespace "doesnotexist")
    ∧ Event.fsMkdir "/b/criu-root" true
        ∈ (libcrun_container_restore_linux_criu envOk statusBase defBadNs optsBase).trace
    ∧ Event.fsMount "rootfs" "/b/criu-root" true
        ∈ (libcrun_container_restore_linux_criu envOk statusBase defBadNs optsBase).trace
    ∧ (∀ ok, Event.fsUmount "/b/criu-root" ok
        ∉ (libcrun_container_restore_linux_criu envOk statusBase defBadNs optsBase).trace)
    ∧ (∀ ok, Event.fsRmdir "/b/criu-root" ok
        ∉ (libcrun_container_restore_linux_criu envOk statusBase defBadNs optsBase).trace) := by
  decide

/-- C4 (counterexample): when the engine restore call has already failed and
the cleanup umount also fails, the returned error is the umount error, not
the earlier engine failure: the cleanup error replaces the first failure. -/
theorem c4_counterexample :
    envC4.criuRestoreChild ≤ 0
    ∧ Event.restoreChildCall
        ∈ (libcrun_container_restore_linux_criu envC4 statusBase defEmpty optsBase).trace
    ∧ (libcrun_container_restore_linux_criu envC4 statusBase defEmpty optsBase).err
        = some (Err.umountError "/b/criu-root" 16) := by decide

/-- C4 (amended): on restore, cleanup failures are not subordinated to an
earlier error.  A failed umount of the ephemeral root is always returned as
the error, replacing any earlier one; when umount succeeds, an earlier
error whose return code is exactly -1 (as produced for a failed engine
restore call) is returned after the rmdir attempt, while a failed rmdir
replaces an earlier error whose code differs from -1. -/
theorem c4_cleanup_error_priority (env : Env) (root : String) (ret : Int)
    (errE : Err) (t : List Event) (st : ContainerStatus) :
    (∀ e, env.umountP root = some e →
        restore_out_umount env root ret (some errE) t st
          = ⟨mkErr e, some (Err.umountError root e), t ++ [Event.fsUmount root false], st⟩)
    ∧ (env.umountP root = none → ret = -1 →
        (restore_out_umount env root ret (some errE) t st).ret = -1
        ∧ (restore_out_umount env root ret (some errE) t st).err = some errE)
    ∧ (∀ e, env.umountP root = none → env.rmdirP root = some e → ret ≠ -1 →
        (restore_out_umount env root ret (some errE) t st).err
          = some (Err.rmdirError root e)) := by
  refine ⟨?_, ?_, ?_⟩
  · intro e he
    simp [restore_out_umount, he]
  · intro hu hr
    constructor <;> simp [restore_out_umount, restore_out, hu, hr]
  · intro e hu hr hne
    simp [restore_out_umount, restore_out, hu, hr, hne]

/-- Witness for C4 (amended), first conjunct: a failed umount after a failed
engine restore yields the umount error. -/
theorem c4_cleanup_error_priority_witness :
    restore_out_umount envC4 "/b/criu-root" (mkErr 0)
        (some (Err.restoreFailed 0 "/img")) [] statusBase
      = ⟨mkErr 16, some (Err.umountError "/b/criu-root" 16),
         [Event.fsUmount "/b/criu-root" false], statusBase⟩ :=
  (c4_cleanup_error_priority envC4 "/b/criu-root" (mkErr 0)
      (Err.restoreFailed 0 "/img") [] statusBase).1 16 rfl

/-- C5 (counterexample): with no image path the checkpoint entry point does
fail with the precondition error, but an engine call (criu_init_opts) has
already been made, contradicting the claim that the failure precedes any
checkpoint-engine call. -/
theorem c5_counterexample :
    (libcrun_container_checkpoint_linux_criu envOk statusBase defEmpty optsNoImage).err
        = some Err.imagePathNotSet
    ∧ ((libcrun_container_checkpoint_linux_criu envOk statusBase defEmpty
          optsNoImage).trace.any engineEvent = true) := by decide

/-- C5 (amended): with root privilege and successful engine init, a missing
image path makes both entry points fail with the precondition error before
any filesystem operation and before any engine call other than engine init:
the trace holds exactly the init call and the status is unchanged. -/
theorem c5_no_image_path (env : Env) (status : ContainerStatus) (d : ContainerDef)
    (opts : CrOptions) (h0 : env.euid = 0) (h1 : 0 ≤ env.criuInit)
    (h2 : opts.imagePath = none) :
    libcrun_container_checkpoint_linux_criu env status d opts
        = ⟨mkErr 0, some Err.imagePathNotSet, [Event.initOpts], status⟩
    ∧ libcrun_container_restore_linux_criu env status d opts
        = ⟨mkErr 0, some Err.imagePathNotSet, [Event.initOpts], status⟩ := by
  have hlt : ¬ env.criuInit < 0 := not_lt.mpr h1
  constructor
  · simp [libcrun_container_checkpoint_linux_criu, h0, hlt, h2]
  · simp [libcrun_container_restore_linux_criu, h0, hlt, h2]

/-- Witness for C5 (amended). -/
theorem c5_no_image_path_witness :
    libcrun_container_checkpoint_linux_criu envOk statusBase defEmpty optsNoImage
      = ⟨mkErr 0, some Err.imagePathNotSet, [Event.initOpts], statusBase⟩ :=
  (c5_no_image_path envOk statusBase defEmpty optsNoImage rfl (by decide) rfl).1

/-- C7 (evaluation at the failing input): on restore, when opening the
network namespace path fails, no error is surfaced: the check tests the
stale ret variable (0 after criu_set_root) instead of the open result, so
the run continues, registers inherit fd -1 under extRootNetNS and completes
with the engine-reported pid. -/
theorem c7_open_failure_ignored_eval :
    (libcrun_container_restore_linux_criu envOpenNsFails statusBase defNetNs optsBase).err
        = none
    ∧ (libcrun_container_restore_linux_criu envOpenNsFails statusBase defNetNs optsBase).ret
        = 42
    ∧ Event.addInheritFd (-1) "extRootNetNS"
        ∈ (libcrun_container_restore_linux_criu envOpenNsFails statusBase defNetNs
            optsBase).trace := by decide

/-- Events that the translation phases (mount, masked-path, namespace,
descriptor, mountpoint-recreation loops) can produce: never a dump or
restore call, never a boolean-option call. -/
def phaseEvent : Event → Bool
  | Event.addExtMount _ _ => true
  | Event.addExternal _ => true
  | Event.addInheritFd _ _ => true
  | Event.fsOpen _ => true
  | Event.fsEnsureDir _ => true
  | Event.fsEnsureFile _ => true
  | _ => false

theorem ckpt_mounts_all_phase (ms : List Mount) :
    (checkpoint_ext_mount_events ms).all phaseEvent = true := by
  induction ms with
  | nil => rfl
  | cons m rest ih =>
      simp only [checkpoint_ext_mount_events, List.all_append, ih, Bool.and_true]
      by_cases hb : hasBindOption m.options
      · rw [if_pos hb]; rfl
      · rw [if_neg hb]; rfl

theorem restore_mounts_all_phase (ms : List Mount) :
    (restore_ext_mount_events ms).all phaseEvent = true := by
  induction ms with
  | nil => rfl
  | cons m rest ih =>
      simp only [restore_ext_mount_events, List.all_append, ih, Bool.and_true]
      by_cases hb : hasBindOption m.options
      · rw [if_pos hb]; rfl
      · rw [if_neg hb]; rfl

theorem masked_all_phase (stat : String → Except Nat StatRec) (f : String → String)
    (ps : List String) : (masked_path_events stat f ps).all phaseEvent = true := by
  induction ps with
  | nil => rfl
  | cons p rest ih =>
      simp only [masked_path_events, List.all_append, ih, Bool.and_true]
      cases hs : stat p with
      | ok sb =>
          by_cases hreg : sb.isReg = true
          · simp only [hs, hreg, if_true, List.all_cons, List.all_nil, Bool.and_true]
            rfl
          · simp [hs, hreg]
      | error e => simp [hs]

theorem pipe_all_phase (v : List String) :
    (pipe_inherit_events v).all phaseEvent = true := by
  rw [List.all_eq_true]
  intro e he
  unfold pipe_inherit_events at he
  rcases List.mem_filterMap.mp he with ⟨p, _, hsome⟩
  by_cases hpre : strncmpPre "pipe:" p.2 = true
  · rw [if_pos hpre] at hsome
    cases hsome
    rfl
  · rw [if_neg hpre] at hsome
    cases hsome

theorem ckpt_ns_events_shape (stat : String → Except Nat StatRec) (nss : List NamespaceRec) :
    (checkpoint_ns_phase stat nss).1 = []
    ∨ ∃ s, (checkpoint_ns_phase stat nss).1 = [Event.addExternal s] := by
  induction nss with
  | nil => left; rfl
  | cons ns rest ih =>
      have hcn : ¬ (cloneNewnet < 0) := by decide
      by_cases h1 : libcrun_find_namespace ns.type < 0
      · left; simp [checkpoint_ns_phase, h1]
      · by_cases h2 : libcrun_find_namespace ns.type = cloneNewnet
        · cases hp : ns.path with
          | some p =>
              cases hs : stat p with
              | ok sb =>
                  right
                  exact ⟨"net[" ++ toString sb.ino ++ "]:extRootNetNS",
                    by simp [checkpoint_ns_phase, h1, h2, hp, hs, hcn]⟩
              | error e => left; simp [checkpoint_ns_phase, h1, h2, hp, hs, hcn]
          | none => simpa [checkpoint_ns_phase, h1, h2, hp] using ih
        · simpa [checkpoint_ns_phase, h1, h2] using ih

theorem restore_ns_events_shape (openf : String → Except Nat Nat) (r : Int)
    (nss : List NamespaceRec) :
    (restore_ns_phase openf r nss).1 = []
    ∨ ∃ fd, (restore_ns_phase openf r nss).1 = [Event.addInheritFd fd "extRootNetNS"] := by
  induction nss with
  | nil => left; rfl
  | cons ns rest ih =>
      have hcn : ¬ (cloneNewnet < 0) := by decide
      by_cases h1 : libcrun_find_namespace ns.type < 0
      · left; simp [restore_ns_phase, h1]
      · by_cases h2 : libcrun_find_namespace ns.type = cloneNewnet
        · cases hp : ns.path with
          | some p =>
              by_cases hr : r < 0
              · left; simp [restore_ns_phase, h1, h2, hp, hr, hcn]
              · right
                exact ⟨(match openf p with
                    | Except.ok n => (Int.ofNat n)
                    | Except.error _ => -1),
                  by simp [restore_ns_phase, h1, h2, hp, hr, hcn]⟩
          | none => simpa [restore_ns_phase, h1, h2, hp] using ih
        · simpa [restore_ns_phase, h1, h2] using ih

theorem ckpt_ns_all_phase (stat : String → Except Nat StatRec) (nss : List NamespaceRec) :
    ((checkpoint_ns_phase stat nss).1).all phaseEvent = true := by
  rcases ckpt_ns_events_shape stat nss with h | ⟨s, h⟩ <;> rw [h] <;> rfl

theorem restore_ns_all_phase (openf : String → Except Nat Nat) (r : Int)
    (nss : List NamespaceRec) :
    ((restore_ns_phase openf r nss).1).all phaseEvent = true := by
  rcases restore_ns_events_shape openf r nss with h | ⟨fd, h⟩ <;> rw [h] <;> rfl

theorem prep_step_all_phase (env : Env) (root : String) (all : List Mount) (m : Mount) :
    ((prepare_restore_mount_step env root all m).1).all phaseEvent = true := by
  unfold prepare_restore_mount_step
  repeat' split
  all_goals (try rfl)
  all_goals (simp only []; split <;> rfl)

theorem prep_loop_all_phase (env : Env) (root : String) (all : List Mount)
    (ms : List Mount) : ((prepare_loop env root all ms).1).all phaseEvent = true := by
  induction ms with
  | nil => rfl
  | cons m rest ih =>
      simp only [prepare_loop]
      rcases hstep : prepare_restore_mount_step env root all m with ⟨evs, f?⟩
      have hall : evs.all phaseEvent = true := by
        have h := prep_step_all_phase env root all m
        rw [hstep] at h
        exact h
      cases f? with
      | some f => simpa [hstep] using hall
      | none => simp [hstep, List.all_append, hall, ih]

theorem not_mem_of_all_phase (x : Event) (hx : phaseEvent x = false) {evs : List Event}
    (h : evs.all phaseEvent = true) : x ∉ evs := by
  intro hmem
  have ht := List.all_eq_true.mp h x hmem
  rw [hx] at ht
  cases ht

theorem restore_out_trace (env : Env) (root : String) (ret : Int) (errE : Option Err)
    (t : List Event) (st : ContainerStatus) :
    (restore_out env root ret errE t st).trace
      = t ++ [Event.fsRmdir root (env.rmdirP root).isNone] := by
  unfold restore_out
  by_cases h : ret = -1
  · simp [h]
  · cases hr : env.rmdirP root <;> simp [h, hr]

theorem restore_out_umount_trace (env : Env) (root : String) (ret : Int)
    (errE : Option Err) (t : List Event) (st : ContainerStatus) :
    (restore_out_umount env root ret errE t st).trace
      = t ++ [Event.fsUmount root (env.umountP root).isNone]
        ++ (match env.umountP root with
            | some _ => []
            | none => [Event.fsRmdir root (env.rmdirP root).isNone]) := by
  unfold restore_out_umount
  cases hu : env.umountP root with
  | none => simp [hu, restore_out_trace]
  | some e => simp [hu]

theorem ckpt_stage_dump_flags (env : Env) (st : ContainerStatus) (d : ContainerDef)
    (opts : CrOptions) (wp : String) (t : List Event)
    (ht : Event.dumpCall ∉ t) :
    Event.dumpCall ∈ (checkpoint_stage_dump env st d opts wp t).trace →
      Event.setLeaveRunning opts.leaveRunning
          ∈ (checkpoint_stage_dump env st d opts wp t).trace
      ∧ Event.setExtUnixSk opts.extUnixSk ∈ (checkpoint_stage_dump env st d opts wp t).trace
      ∧ Event.setShellJob opts.shellJob ∈ (checkpoint_stage_dump env st d opts wp t).trace
      ∧ Event.setTcpEstablished opts.tcpEstablished
          ∈ (checkpoint_stage_dump env st d opts wp t).trace := by
  rcases hns : checkpoint_ns_phase env.statP d.linux.namespaces with ⟨evs, f?⟩
  have hevs : evs.all phaseEvent = true := by
    have h := ckpt_ns_all_phase env.statP d.linux.namespaces
    rw [hns] at h
    exact h
  cases f? with
  | some f =>
      intro hmem
      exfalso
      simp only [checkpoint_stage_dump, hns] at hmem
      rcases List.mem_append.mp hmem with hmem | hmem
      · rcases List.mem_append.mp hmem with hmem | hmem
        · rcases List.mem_append.mp hmem with hmem | hmem
          · exact ht hmem
          · exact not_mem_of_all_phase Event.dumpCall rfl
              (ckpt_mounts_all_phase d.mounts) hmem
        · exact not_mem_of_all_phase Event.dumpCall rfl (masked_all_phase _ _ _) hmem
      · exact not_mem_of_all_phase Event.dumpCall rfl hevs hmem
  | none =>
      intro _
      simp only [checkpoint_stage_dump, hns]
      by_cases hd : env.criuDump ≠ 0 <;>
        simp [hd, List.mem_append]

theorem ckpt_stage_root_flags (env : Env) (st : ContainerStatus) (d : ContainerDef)
    (opts : CrOptions) (wp : String) (t : List Event)
    (ht : Event.dumpCall ∉ t) :
    Event.dumpCall ∈ (checkpoint_stage_root env st d opts wp t).trace →
      Event.setLeaveRunning opts.leaveRunning
          ∈ (checkpoint_stage_root env st d opts wp t).trace
      ∧ Event.setExtUnixSk opts.extUnixSk ∈ (checkpoint_stage_root env st d opts wp t).trace
      ∧ Event.setShellJob opts.shellJob ∈ (checkpoint_stage_root env st d opts wp t).trace
      ∧ Event.setTcpEstablished opts.tcpEstablished
          ∈ (checkpoint_stage_root env st d opts wp t).trace := by
  simp only [checkpoint_stage_root]
  by_cases hr : env.criuSetRoot (st.bundle ++ "/" ++ st.rootfs) ≠ 0
  · rw [if_pos hr]
    intro hmem
    exfalso
    simp [List.mem_append] at hmem
    exact ht hmem
  · rw [if_neg hr]
    exact ckpt_stage_dump_flags env st d opts wp _
      (by intro h; simp [List.mem_append] at h; exact ht h)

theorem ckpt_stage_work_flags (env : Env) (st : ContainerStatus) (d : ContainerDef)
    (opts : CrOptions) (ip : String) (t : List Event)
    (ht : Event.dumpCall ∉ t) :
    Event.dumpCall ∈ (checkpoint_stage_work env st d opts ip t).trace →
      Event.setLeaveRunning opts.leaveRunning
          ∈ (checkpoint_stage_work env st d opts ip t).trace
      ∧ Event.setExtUnixSk opts.extUnixSk ∈ (checkpoint_stage_work env st d opts ip t).trace
      ∧ Event.setShellJob opts.shellJob ∈ (checkpoint_stage_work env st d opts ip t).trace
      ∧ Event.setTcpEstablished opts.tcpEstablished
          ∈ (checkpoint_stage_work env st d opts ip t).trace := by
  rcases hwp : opts.workPath with _ | wp
  · simp only [checkpoint_stage_work, hwp]
    exact ckpt_stage_root_flags env st d opts ip t ht
  · rcases ho : env.openFile wp with e | workFd
    · simp only [checkpoint_stage_work, hwp, ho]
      intro hmem
      exfalso
      simp [List.mem_append] at hmem
      exact ht hmem
    · simp only [checkpoint_stage_work, hwp, ho]
      exact ckpt_stage_root_flags env st d opts wp _
        (by intro h; simp [List.mem_append] at h; exact ht h)

theorem ckpt_stage_dirs_flags (env : Env) (st : ContainerStatus) (d : ContainerDef)
    (opts : CrOptions) (ip : String) (t : List Event)
    (ht : Event.dumpCall ∉ t) :
    Event.dumpCall ∈ (checkpoint_stage_dirs env st d opts ip t).trace →
      Event.setLeaveRunning opts.leaveRunning
          ∈ (checkpoint_stage_dirs env st d opts ip t).trace
      ∧ Event.setExtUnixSk opts.extUnixSk ∈ (checkpoint_stage_dirs env st d opts ip t).trace
      ∧ Event.setShellJob opts.shellJob ∈ (checkpoint_stage_dirs env st d opts ip t).trace
      ∧ Event.setTcpEstablished opts.tcpEstablished
          ∈ (checkpoint_stage_dirs env st d opts ip t).trace := by
  rcases hoi : env.openFile ip with e | imageFd
  · simp only [checkpoint_stage_dirs, hoi]
    intro hmem
    exfalso
    simp [List.mem_append] at hmem
    exact ht hmem
  · rcases hod : env.openFile (ip ++ "/" ++ "descriptors.json") with e | dfd
    · simp only [checkpoint_stage_dirs, hoi, hod]
      intro hmem
      exfalso
      simp [List.mem_append] at hmem
      exact ht hmem
    · rcases hed : st.externalDescriptors with _ | s
      · simp only [checkpoint_stage_dirs, hoi, hod, hed]
        exact ckpt_stage_work_flags env st d opts ip _
          (by intro h; simp [List.mem_append] at h; exact ht h)
      · rcases hw : env.writeFile (ip ++ "/" ++ "descriptors.json") s with _ | e
        · simp only [checkpoint_stage_dirs, hoi, hod, hed, hw]
          exact ckpt_stage_work_flags env st d opts ip _
            (by intro h; simp [List.mem_append] at h; exact ht h)
        · simp only [checkpoint_stage_dirs, hoi, hod, hed, hw]
          intro hmem
          exfalso
          simp [List.mem_append] at hmem
          exact ht hmem

theorem restore_out_mem_elim (env : Env) (root : String) (ret : Int) (errE : Option Err)
    (t : List Event) (st : ContainerStatus) (x : Event)
    (h : x ∈ (restore_out env root ret errE t st).trace) :
    x ∈ t ∨ ∃ b, x = Event.fsRmdir root b := by
  rw [restore_out_trace] at h
  rcases List.mem_append.mp h with h | h
  · exact Or.inl h
  · exact Or.inr ⟨_, List.mem_singleton.mp h⟩

theorem restore_out_mem_mono (env : Env) (root : String) (ret : Int) (errE : Option Err)
    (t : List Event) (st : ContainerStatus) (x : Event) (h : x ∈ t) :
    x ∈ (restore_out env root ret errE t st).trace := by
  rw [restore_out_trace]
  exact List.mem_append.mpr (Or.inl h)

theorem restore_out_umount_mem_elim (env : Env) (root : String) (ret : Int)
    (errE : Option Err) (t : List Event) (st : ContainerStatus) (x : Event)
    (h : x ∈ (restore_out_umount env root ret errE t st).trace) :
    x ∈ t ∨ (∃ b, x = Event.fsUmount root b) ∨ ∃ b, x = Event.fsRmdir root b := by
  rw [restore_out_umount_trace] at h
  rcases List.mem_append.mp h with h | h
  · rcases List.mem_append.mp h with h | h
    · exact Or.inl h
    · exact Or.inr (Or.inl ⟨_, List.mem_singleton.mp h⟩)
  · rcases hu : env.umountP root with _ | e
    · rw [hu] at h
      exact Or.inr (Or.inr ⟨_, List.mem_singleton.mp h⟩)
    · rw [hu] at h
      cases h

theorem restore_out_umount_mem_mono (env : Env) (root : String) (ret : Int)
    (errE : Option Err) (t : List Event) (st : ContainerStatus) (x : Event) (h : x ∈ t) :
    x ∈ (restore_out_umount env root ret errE t st).trace := by
  rw [restore_out_umount_trace]
  exact List.mem_append.mpr (Or.inl (List.mem_append.mpr (Or.inl h)))

theorem restore_stage_engine_flags (env : Env) (st : ContainerStatus) (d : ContainerDef)
    (opts : CrOptions) (wp : String) (t : List Event)
    (hrc : Event.restoreChildCall ∉ t)
    (hlr : ∀ b, Event.setLeaveRunning b ∉ t) :
    (Event.restoreChildCall ∈ (restore_stage_engine env st d opts wp t).trace →
      Event.setExtUnixSk opts.extUnixSk ∈ (restore_stage_engine env st d opts wp t).trace
      ∧ Event.setShellJob opts.shellJob ∈ (restore_stage_engine env st d opts wp t).trace
      ∧ Event.setTcpEstablished opts.tcpEstablished
          ∈ (restore_stage_engine env st d opts wp t).trace)
    ∧ ∀ b, Event.setLeaveRunning b ∉ (restore_stage_engine env st d opts wp t).trace := by
  have hA := restore_mounts_all_phase d.mounts
  have hB := masked_all_phase env.statP (fun _ => "/dev/null") d.linux.maskedPaths
  have hD := masked_all_phase env.statP (fun p => p) d.linux.maskedPaths
  have nArc := not_mem_of_all_phase Event.restoreChildCall rfl hA
  have nBrc := not_mem_of_all_phase Event.restoreChildCall rfl hB
  have nDrc := not_mem_of_all_phase Event.restoreChildCall rfl hD
  have nAlr := fun b => not_mem_of_all_phase (Event.setLeaveRunning b) rfl hA
  have nBlr := fun b => not_mem_of_all_phase (Event.setLeaveRunning b) rfl hB
  have nDlr := fun b => not_mem_of_all_phase (Event.setLeaveRunning b) rfl hD
  rcases hmk : env.mkdirP (st.bundle ++ "/criu-root") with _ | e
  · rcases hmt : env.mountBind st.rootfs (st.bundle ++ "/criu-root") with _ | e
    · rcases hprep : prepare_restore_mounts env (st.bundle ++ "/criu-root") d.mounts
        with ⟨pevs, _ | f⟩
      · have hPall : pevs.all phaseEvent = true := by
          have h : ((prepare_restore_mounts env (st.bundle ++ "/criu-root") d.mounts).1).all
              phaseEvent = true :=
            prep_loop_all_phase env (st.bundle ++ "/criu-root") d.mounts d.mounts
          rw [hprep] at h
          exact h
        have nPrc := not_mem_of_all_phase Event.restoreChildCall rfl hPall
        have nPlr := fun b => not_mem_of_all_phase (Event.setLeaveRunning b) rfl hPall
        by_cases hsr : env.criuSetRoot (st.bundle ++ "/criu-root") ≠ 0
        · simp only [restore_stage_engine, hmk, hmt, hprep, if_pos hsr]
          constructor
          · intro hmem
            exfalso
            rcases restore_out_umount_mem_elim _ _ _ _ _ _ _ hmem
              with h | ⟨b, hb⟩ | ⟨b, hb⟩
            · simp [List.mem_append, hrc, nArc, nBrc, nPrc] at h
            · cases hb
            · cases hb
          · intro b hmem
            rcases restore_out_umount_mem_elim _ _ _ _ _ _ _ hmem
              with h | ⟨b2, hb⟩ | ⟨b2, hb⟩
            · simp [List.mem_append, hlr b, nAlr b, nBlr b, nPlr b] at h
            · cases hb
            · cases hb
        · rcases hns : restore_ns_phase env.openFile 0 d.linux.namespaces
            with ⟨nsEvs, _ | f⟩
          · have hNall : nsEvs.all phaseEvent = true := by
              have h := restore_ns_all_phase env.openFile 0 d.linux.namespaces
              rw [hns] at h
              exact h
            have nNrc := not_mem_of_all_phase Event.restoreChildCall rfl hNall
            have nNlr := fun b => not_mem_of_all_phase (Event.setLeaveRunning b) rfl hNall
            by_cases hrc0 : env.criuRestoreChild ≤ 0
            · simp only [restore_stage_engine, hmk, hmt, hprep, if_neg hsr, hns,
                if_pos hrc0]
              constructor
              · intro _
                refine ⟨?_, ?_, ?_⟩ <;>
                  (apply restore_out_umount_mem_mono; simp [List.mem_append])
              · intro b hmem
                rcases restore_out_umount_mem_elim _ _ _ _ _ _ _ hmem
                  with h | ⟨b2, hb⟩ | ⟨b2, hb⟩
                · simp [List.mem_append, hlr b, nAlr b, nBlr b, nPlr b, nNlr b,
                    nDlr b] at h
                · cases hb
                · cases hb
            · simp only [restore_stage_engine, hmk, hmt, hprep, if_neg hsr, hns,
                if_neg hrc0]
              constructor
              · intro _
                refine ⟨?_, ?_, ?_⟩ <;>
                  (apply restore_out_umount_mem_mono; simp [List.mem_append])
              · intro b hmem
                rcases restore_out_umount_mem_elim _ _ _ _ _ _ _ hmem
                  with h | ⟨b2, hb⟩ | ⟨b2, hb⟩
                · simp [List.mem_append, hlr b, nAlr b, nBlr b, nPlr b, nNlr b,
                    nDlr b] at h
                · cases hb
                · cases hb
          · simp only [restore_stage_engine, hmk, hmt, hprep, if_neg hsr, hns]
            constructor
            · intro hmem
              exfalso
              have hNall : nsEvs.all phaseEvent = true := by
                have h := restore_ns_all_phase env.openFile 0 d.linux.namespaces
                rw [hns] at h
                exact h
              have nNrc := not_mem_of_all_phase Event.restoreChildCall rfl hNall
              simp [List.mem_append, hrc, nArc, nBrc, nPrc, nNrc] at hmem
            · intro b hmem
              have hNall : nsEvs.all phaseEvent = true := by
                have h := restore_ns_all_phase env.openFile 0 d.linux.namespaces
                rw [hns] at h
                exact h
              have nNlr := not_mem_of_all_phase (Event.setLeaveRunning b) rfl hNall
              simp [List.mem_append, hlr b, nAlr b, nBlr b, nPlr b, nNlr] at hmem
      · simp only [restore_stage_engine, hmk, hmt, hprep]
        have hPall : pevs.all phaseEvent = true := by
          have h : ((prepare_restore_mounts env (st.bundle ++ "/criu-root") d.mounts).1).all
              phaseEvent = true :=
            prep_loop_all_phase env (st.bundle ++ "/criu-root") d.mounts d.mounts
          rw [hprep] at h
          exact h
        have nPrc := not_mem_of_all_phase Event.restoreChildCall rfl hPall
        have nPlr := fun b => not_mem_of_all_phase (Event.setLeaveRunning b) rfl hPall
        constructor
        · intro hmem
          exfalso
          rcases restore_out_umount_mem_elim _ _ _ _ _ _ _ hmem
            with h | ⟨b, hb⟩ | ⟨b, hb⟩
          · simp [List.mem_append, hrc, nArc, nBrc, nPrc] at h
          · cases hb
          · cases hb
        · intro b hmem
          rcases restore_out_umount_mem_elim _ _ _ _ _ _ _ hmem
            with h | ⟨b2, hb⟩ | ⟨b2, hb⟩
          · simp [List.mem_append, hlr b, nAlr b, nBlr b, nPlr b] at h
          · cases hb
          · cases hb
    · simp only [restore_stage_engine, hmk, hmt]
      constructor
      · intro hmem
        exfalso
        rcases restore_out_mem_elim _ _ _ _ _ _ _ hmem with h | ⟨b, hb⟩
        · simp [List.mem_append, hrc, nArc, nBrc] at h
        · cases hb
      · intro b hmem
        rcases restore_out_mem_elim _ _ _ _ _ _ _ hmem with h | ⟨b2, hb⟩
        · simp [List.mem_append, hlr b, nAlr b, nBlr b] at h
        · cases hb
  · simp only [restore_stage_engine, hmk]
    constructor
    · intro hmem
      exfalso
      simp [List.mem_append, hrc, nArc, nBrc] at hmem
    · intro b hmem
      simp [List.mem_append, hlr b, nAlr b, nBlr b] at hmem

theorem restore_stage_desc_work_flags (env : Env) (st : ContainerStatus) (d : ContainerDef)
    (opts : CrOptions) (ip : String) (t : List Event)
    (hrc : Event.restoreChildCall ∉ t)
    (hlr : ∀ b, Event.setLeaveRunning b ∉ t) :
    (Event.restoreChildCall ∈ (restore_stage_desc_work env st d opts ip t).trace →
      Event.setExtUnixSk opts.extUnixSk ∈ (restore_stage_desc_work env st d opts ip t).trace
      ∧ Event.setShellJob opts.shellJob ∈ (restore_stage_desc_work env st d opts ip t).trace
      ∧ Event.setTcpEstablished opts.tcpEstablished
          ∈ (restore_stage_desc_work env st d opts ip t).trace)
    ∧ ∀ b, Event.setLeaveRunning b ∉ (restore_stage_desc_work env st d opts ip t).trace := by
  rcases hra : env.readAllFile (ip ++ "/" ++ "descriptors.json") with e | buffer
  · simp only [restore_stage_desc_work, hra]
    constructor
    · intro hmem
      exfalso
      simp [List.mem_append, hrc] at hmem
    · intro b hmem
      simp [List.mem_append, hlr b] at hmem
  · rcases hrl : readLedger buffer with _ | v
    · simp only [restore_stage_desc_work, hra, hrl]
      constructor
      · intro hmem
        exfalso
        simp [List.mem_append, hrc] at hmem
      · intro b hmem
        simp [List.mem_append, hlr b] at hmem
    · have hPipe := pipe_all_phase v
      have nprc := not_mem_of_all_phase Event.restoreChildCall rfl hPipe
      have nplr := fun b => not_mem_of_all_phase (Event.setLeaveRunning b) rfl hPipe
      rcases hwp : opts.workPath with _ | wp2
      · simp only [restore_stage_desc_work, hra, hrl, hwp]
        apply restore_stage_engine_flags
        · intro h
          simp [List.mem_append, hrc, nprc] at h
        · intro b h
          simp [List.mem_append, hlr b, nplr b] at h
      · rcases ho : env.openFile wp2 with e | workFd
        · simp only [restore_stage_desc_work, hra, hrl, hwp, ho]
          constructor
          · intro hmem
            exfalso
            simp [List.mem_append, hrc, nprc] at hmem
          · intro b hmem
            simp [List.mem_append, hlr b, nplr b] at hmem
        · simp only [restore_stage_desc_work, hra, hrl, hwp, ho]
          apply restore_stage_engine_flags
          · intro h
            simp [List.mem_append, hrc, nprc] at h
          · intro b h
            simp [List.mem_append, hlr b, nplr b] at h

theorem ckpt_entry_flags (env : Env) (status : ContainerStatus) (d : ContainerDef)
    (opts : CrOptions) :
    Event.dumpCall ∈ (libcrun_container_checkpoint_linux_criu env status d opts).trace →
      Event.setLeaveRunning opts.leaveRunning
          ∈ (libcrun_container_checkpoint_linux_criu env status d opts).trace
      ∧ Event.setExtUnixSk opts.extUnixSk
          ∈ (libcrun_container_checkpoint_linux_criu env status d opts).trace
      ∧ Event.setShellJob opts.shellJob
          ∈ (libcrun_container_checkpoint_linux_criu env status d opts).trace
      ∧ Event.setTcpEstablished opts.tcpEstablished
          ∈ (libcrun_container_checkpoint_linux_criu env status d opts).trace := by
  by_cases heu : env.euid ≠ 0
  · simp only [libcrun_container_checkpoint_linux_criu, if_pos heu]
    intro hmem
    exact absurd hmem (by simp)
  · simp only [libcrun_container_checkpoint_linux_criu, if_neg heu]
    by_cases hin : env.criuInit < 0
    · simp only [if_pos hin]
      intro hmem
      exact absurd hmem (by simp)
    · simp only [if_neg hin]
      rcases hip : opts.imagePath with _ | ip
      · simp only [hip]
        intro hmem
        exact absurd hmem (by simp)
      · simp only [hip]
        rcases hmk : env.mkdirP ip with _ | e
        · simp only [hmk]
          exact ckpt_stage_dirs_flags env status d opts ip _ (by simp)
        · by_cases he17 : e ≠ 17
          · simp only [hmk, if_pos he17]
            intro hmem
            exact absurd hmem (by simp)
          · simp only [hmk, if_neg he17]
            exact ckpt_stage_dirs_flags env status d opts ip _ (by simp)

theorem restore_entry_flags (env : Env) (status : ContainerStatus) (d : ContainerDef)
    (opts : CrOptions) :
    (Event.restoreChildCall
        ∈ (libcrun_container_restore_linux_criu env status d opts).trace →
      Event.setExtUnixSk opts.extUnixSk
          ∈ (libcrun_container_restore_linux_criu env status d opts).trace
      ∧ Event.setShellJob opts.shellJob
          ∈ (libcrun_container_restore_linux_criu env status d opts).trace
      ∧ Event.setTcpEstablished opts.tcpEstablished
          ∈ (libcrun_container_restore_linux_criu env status d opts).trace)
    ∧ ∀ b, Event.setLeaveRunning b
        ∉ (libcrun_container_restore_linux_criu env status d opts).trace := by
  by_cases heu : env.euid ≠ 0
  · simp only [libcrun_container_restore_linux_criu, if_pos heu]
    constructor
    · intro hmem
      exact absurd hmem (by simp)
    · intro b hmem
      simp at hmem
  · simp only [libcrun_container_restore_linux_criu, if_neg heu]
    by_cases hin : env.criuInit < 0
    · simp only [if_pos hin]
      constructor
      · intro hmem
        exact absurd hmem (by simp)
      · intro b hmem
        simp at hmem
    · simp only [if_neg hin]
      rcases hip : opts.imagePath with _ | ip
      · simp only [hip]
        constructor
        · intro hmem
          exact absurd hmem (by simp)
        · intro b hmem
          simp at hmem
      · simp only [hip]
        rcases ho : env.openFile ip with e | imageFd
        · simp only [ho]
          constructor
          · intro hmem
            exact absurd hmem (by simp)
          · intro b hmem
            simp at hmem
        · simp only [ho]
          apply restore_stage_desc_work_flags
          · intro h
            simp at h
          · intro b h
            simp at h

/-- C6 (amended): checkpoint passes all four boolean option flags unchanged
to the engine on every run that reaches the dump call; restore passes
external-unix-sockets, shell-job and tcp-established unchanged on every run
that reaches the engine restore call, and never passes leave-running. -/
theorem c6_boolean_flags (env : Env) (status : ContainerStatus) (d : ContainerDef)
    (opts : CrOptions) :
    (Event.dumpCall ∈ (libcrun_container_checkpoint_linux_criu env status d opts).trace →
      Event.setLeaveRunning opts.leaveRunning
          ∈ (libcrun_container_checkpoint_linux_criu env status d opts).trace
      ∧ Event.setExtUnixSk opts.extUnixSk
          ∈ (libcrun_container_checkpoint_linux_criu env status d opts).trace
      ∧ Event.setShellJob opts.shellJob
          ∈ (libcrun_container_checkpoint_linux_criu env status d opts).trace
      ∧ Event.setTcpEstablished opts.tcpEstablished
          ∈ (libcrun_container_checkpoint_linux_criu env status d opts).trace)
    ∧ (Event.restoreChildCall
          ∈ (libcrun_container_restore_linux_criu env status d opts).trace →
        Event.setExtUnixSk opts.extUnixSk
            ∈ (libcrun_container_restore_linux_criu env status d opts).trace
        ∧ Event.setShellJob opts.shellJob
            ∈ (libcrun_container_restore_linux_criu env status d opts).trace
        ∧ Event.setTcpEstablished opts.tcpEstablished
            ∈ (libcrun_container_restore_linux_criu env status d opts).trace)
    ∧ ∀ b, Event.setLeaveRunning b
        ∉ (libcrun_container_restore_linux_criu env status d opts).trace :=
  ⟨ckpt_entry_flags env status d opts, (restore_entry_flags env status d opts).1,
   (restore_entry_flags env status d opts).2⟩

/-- C6 (counterexample): a restore that reaches the engine restore call
whose trace holds no leave-running option call at all: the fourth flag is
not passed through on restore. -/
theorem c6_counterexample :
    Event.restoreChildCall
        ∈ (libcrun_container_restore_linux_criu envOk statusBase defEmpty optsBase).trace
    ∧ ∀ b, Event.setLeaveRunning b
        ∉ (libcrun_container_restore_linux_criu envOk statusBase defEmpty optsBase).trace := by
  decide

/-- Witness for C6 (amended): a checkpoint run that reaches dump passes
leave-running, and a restore run that reaches the engine passes
external-unix-sockets. -/
theorem c6_boolean_flags_witness :
    Event.setLeaveRunning false
        ∈ (libcrun_container_checkpoint_linux_criu envOk statusBase defEmpty optsBase).trace
    ∧ Event.setExtUnixSk true
        ∈ (libcrun_container_restore_linux_criu envOk statusBase defEmpty optsBase).trace := by
  have h := c6_boolean_flags envOk statusBase defEmpty optsBase
  exact ⟨(h.1 (by decide)).1, (h.2.1 (by decide)).1⟩
